import Mathlib

/-!
Verification development for the rpa module (src/rpa.py), a thin wrapper over
a browser-automation driver.  Two components are modelled:

* the Download Completion Watcher (wait_download): a sleep-and-recheck loop
  over an external filesystem, embedded here with the filesystem given as
  traces (isfile : Nat → Bool, sizes : Nat → Int) indexed by polling tick,
  and nontermination made observable through a fuel parameter;
* the Wait Dispatcher (the wait_* family): one-line delegations to the
  driver library's WebDriverWait.until with an expected-condition predicate.
  The driver library is external to the repository, so its until loop and
  condition predicates are modelled from the spec, while each wrapper is
  translated from the source.

Sleeping is modelled by advancing the tick index; the check_interval and the
1-second retry delay only scale wall-clock time and are represented by the
count of sleep calls.
-/

namespace Rpa

/-- State of the polling loop of wait_download (src/rpa.py lines 456-457):
the previous_size sentinel starts at -1 and equal_readings at 0. -/
structure ProbeState where
  previous_size : Int
  equal_readings : Nat
deriving DecidableEq, Repr

/-- Body of one polling tick of wait_download (src/rpa.py lines 459-464):
read the current size, increment equal_readings if it equals previous_size,
otherwise reset to 0, and store the current size as previous_size. -/
def pollTick (s : ProbeState) (current_size : Int) : ProbeState :=
  { previous_size := current_size
    equal_readings :=
      if current_size = s.previous_size then s.equal_readings + 1 else 0 }

/-- Result of a terminating run of wait_download: the returned final size,
the number of size readings performed, and the number of check_interval
sleeps performed. -/
structure PollResult where
  final_size : Int
  readings : Nat
  sleeps : Nat
deriving DecidableEq, Repr

/-- Observable outcome of running wait_download with a given amount of fuel:
outOfFuel when the loop is still running when the fuel ends (so a run that
never terminates is outOfFuel at every fuel), raised when the Python code
would raise (the final logging line reads current_size, which is unbound
when max_equal_readings = 0 and the loop body never runs), and returned
with the final size otherwise. -/
inductive DlOutcome where
  | outOfFuel : DlOutcome
  | raised : DlOutcome
  | returned : PollResult → DlOutcome
deriving DecidableEq, Repr

/-- The while loop of wait_download (src/rpa.py lines 458-473): while
equal_readings < max_equal_readings, read sizes i, update the state with
pollTick, and sleep check_interval only when the updated equal_readings is
still below the threshold; on exit return the last read size.  i counts the
readings performed so far and doubles as the index into the size trace. -/
def pollRun (sizes : Nat → Int) (max_equal_readings : Nat) :
    Nat → ProbeState → Nat → Nat → DlOutcome
  | 0, _, _, _ => .outOfFuel
  | fuel + 1, s, i, sleeps =>
    if s.equal_readings < max_equal_readings then
      let s' := pollTick s (sizes i)
      pollRun sizes max_equal_readings fuel s' (i + 1)
        (if s'.equal_readings < max_equal_readings then sleeps + 1 else sleeps)
    else if i = 0 then .raised
    else .returned ⟨s.previous_size, i, sleeps⟩

/-- The waiting loop of wait_download (src/rpa.py lines 453-455): while the
file does not exist, log and sleep 1 second.  Returns the tick at which the
file was first seen, or none if the fuel runs out first. -/
def waitFile (isfile : Nat → Bool) : Nat → Nat → Option Nat
  | 0, _ => none
  | fuel + 1, t => if isfile t then some t else waitFile isfile fuel (t + 1)

/-- wait_download (src/rpa.py lines 444-473): wait for the file to exist,
then poll its size until max_equal_readings consecutive equal readings are
seen.  The two loops receive separate fuel supplies. -/
def wait_download (isfile : Nat → Bool) (sizes : Nat → Int)
    (max_equal_readings : Nat) (fuelWait fuelPoll : Nat) : DlOutcome :=
  match waitFile isfile fuelWait 0 with
  | none => .outOfFuel
  | some _ => pollRun sizes max_equal_readings fuelPoll ⟨-1, 0⟩ 0 0

/-- Value of equal_readings just after the reading with index n, computed
directly from the size trace: reading 0 is compared against the sentinel -1,
reading n+1 against reading n. -/
def eqAt (sizes : Nat → Int) : Nat → Nat
  | 0 => if sizes 0 = -1 then 1 else 0
  | n + 1 => if sizes (n + 1) = sizes n then eqAt sizes n + 1 else 0

/-- Value of previous_size at the start of the iteration that performs
reading n. -/
def prevAt (sizes : Nat → Int) : Nat → Int
  | 0 => -1
  | n + 1 => sizes n

/-- Value of equal_readings at the start of the iteration that performs
reading n. -/
def eqBefore (sizes : Nat → Int) : Nat → Nat
  | 0 => 0
  | n + 1 => eqAt sizes n

end Rpa

namespace Rpa

/-- Dispatch of the source's many wait functions: a symbolic label naming
which expected condition a wait is polling for, carried by timeout errors. -/
inductive ConditionKind where
  | alertPresent
  | elementClickable
  | frameAvailable
  | elementInvisible
  | elementSelected
  | attributeContainsText
  | urlContains
  | elementVisible
  | allElementsVisible
  | newWindowOpened
  | elementSelectionState
deriving DecidableEq, Repr

/-- Modelled from the spec: the timeout failure of the Wait Dispatcher,
carrying the condition kind and the elapsed duration. -/
structure ConditionTimeout where
  kind : ConditionKind
  elapsed : Nat
deriving DecidableEq, Repr

/-- Modelled from the spec: a DOM element as seen through the Automation
Session, with the observable predicates the conditions consult and an
attribute lookup. -/
structure WebElement where
  displayed : Bool
  enabled : Bool
  selected : Bool
  getAttr : String → String

/-- Modelled from the spec: the externally supplied Automation Session
state at one polling tick: current URL, alert presence, which frames are
available, the active execution context (none = default content), the
number of open windows, and the elements matching each XPath locator, in
document order. -/
structure Session where
  currentUrl : String
  alertShown : Bool
  framesAvailable : String → Bool
  context : Option String
  windowCount : Nat
  elems : String → List WebElement

/-- Modelled from the spec: the polling loop inside WebDriverWait.until
with poll frequency 1 time unit.  Starting at tick k with rem further ticks
allowed, evaluate the condition on the session state of each tick; on the
first tick where it yields a payload, stop and also record the (possibly
updated, for the frame condition) session and the success tick. -/
def untilFrom {α : Type} (cond : Session → Option (α × Session))
    (states : Nat → Session) : Nat → Nat → Option (α × Session × Nat)
  | k, 0 =>
    match cond (states k) with
    | some (a, s) => some (a, s, k)
    | none => none
  | k, rem + 1 =>
    match cond (states k) with
    | some (a, s) => some (a, s, k)
    | none => untilFrom cond states (k + 1) rem

/-- Modelled from the spec: WebDriverWait.until as configured by get_wait
(src/rpa.py lines 115-126, poll frequency 1): poll the condition from tick 0
until it holds or the timeout elapses; on timeout fail with ConditionTimeout
carrying the kind and the elapsed duration. -/
def webDriverWait_until {α : Type} (timeout : Nat) (kind : ConditionKind)
    (states : Nat → Session) (cond : Session → Option (α × Session)) :
    Except ConditionTimeout (α × Session × Nat) :=
  match untilFrom cond states 0 timeout with
  | some r => .ok r
  | none => .error ⟨kind, timeout⟩

/-- Modelled from the spec: the alert-present condition. -/
def ec_alert_is_present (s : Session) : Option (Bool × Session) :=
  if s.alertShown then some (true, s) else none

/-- Modelled from the spec: the element-clickable condition, yielding the
first matching element that is displayed and enabled. -/
def ec_element_to_be_clickable (xpath : String) (s : Session) :
    Option (WebElement × Session) :=
  match (s.elems xpath).find? (fun e => e.displayed && e.enabled) with
  | some e => some (e, s)
  | none => none

/-- Modelled from the spec: the frame-available condition; on success the
active execution context of the session is switched to that frame. -/
def ec_frame_to_be_available_and_switch_to_it (xpath : String) (s : Session) :
    Option (Bool × Session) :=
  if s.framesAvailable xpath then some (true, { s with context := some xpath })
  else none

/-- Modelled from the spec: the element-invisible condition, satisfied when
no matching element is displayed. -/
def ec_invisibility_of_element_located (xpath : String) (s : Session) :
    Option (Bool × Session) :=
  if (s.elems xpath).all (fun e => !e.displayed) then some (true, s) else none

/-- Modelled from the spec: the element-selected condition, yielding the
boolean true once a matching element is selected. -/
def ec_element_to_be_selected (xpath : String) (s : Session) :
    Option (Bool × Session) :=
  match (s.elems xpath).find? (fun e => e.selected) with
  | some _ => some (true, s)
  | none => none

/-- Modelled from the spec: the attribute-contains-text condition on the
first matching element. -/
def ec_text_to_be_present_in_element_attribute (xpath attrName text : String)
    (s : Session) : Option (Bool × Session) :=
  match (s.elems xpath).head? with
  | some e =>
    if List.IsInfix text.data ((e.getAttr attrName).data) then some (true, s)
    else none
  | none => none

/-- Modelled from the spec: the url-contains condition. -/
def ec_url_contains (url : String) (s : Session) : Option (Bool × Session) :=
  if List.IsInfix url.data s.currentUrl.data then some (true, s) else none

/-- Modelled from the spec: the element-visible condition, yielding the
first matching element that is displayed. -/
def ec_visibility_of_element_located (xpath : String) (s : Session) :
    Option (WebElement × Session) :=
  match (s.elems xpath).find? (fun e => e.displayed) with
  | some e => some (e, s)
  | none => none

/-- Modelled from the spec: the all-elements-visible condition, yielding the
ordered sequence of matching elements once it is nonempty and every one of
them is displayed. -/
def ec_visibility_of_all_elements_located (xpath : String) (s : Session) :
    Option (List WebElement × Session) :=
  if !(s.elems xpath).isEmpty && (s.elems xpath).all (fun e => e.displayed)
  then some (s.elems xpath, s) else none

/-- Modelled from the spec: the new-window-opened condition relative to a
baseline count of window handles. -/
def ec_new_window_is_opened (baseline : Nat) (s : Session) :
    Option (Bool × Session) :=
  if baseline < s.windowCount then some (true, s) else none

/-- Modelled from the spec: the element-selection-state condition over an
element captured at call time (the source passes the already-found element
into the condition). -/
def ec_element_selection_state_to_be (e : WebElement) (state : Bool)
    (s : Session) : Option (Bool × Session) :=
  if e.selected = state then some (true, s) else none

end Rpa

namespace Rpa

/-- The module-wide default of the timeout parameter of every wrapper in
src/rpa.py (timeout: int = 12). -/
def default_timeout : Nat := 12

/-- wait_alert (src/rpa.py lines 129-135): wait for an alert to be present;
the Python function has no return statement, so the payload is dropped. -/
def wait_alert (states : Nat → Session) (timeout : Nat) :
    Except ConditionTimeout (Unit × Session × Nat) :=
  match webDriverWait_until timeout .alertPresent states ec_alert_is_present with
  | .ok (_, s, k) => .ok ((), s, k)
  | .error e => .error e

/-- wait_clickable (src/rpa.py lines 138-145): wait for the element to be
clickable and return it. -/
def wait_clickable (states : Nat → Session) (xpath : String) (timeout : Nat) :
    Except ConditionTimeout (WebElement × Session × Nat) :=
  webDriverWait_until timeout .elementClickable states
    (ec_element_to_be_clickable xpath)

/-- wait_frame (src/rpa.py lines 148-157): wait for the frame to be
available and switch to it; no return statement, so the payload is
dropped while the session keeps the switched context. -/
def wait_frame (states : Nat → Session) (xpath : String) (timeout : Nat) :
    Except ConditionTimeout (Unit × Session × Nat) :=
  match webDriverWait_until timeout .frameAvailable states
      (ec_frame_to_be_available_and_switch_to_it xpath) with
  | .ok (_, s, k) => .ok ((), s, k)
  | .error e => .error e

/-- wait_invisibility (src/rpa.py lines 160-167): wait for the element to be
invisible; no return statement. -/
def wait_invisibility (states : Nat → Session) (xpath : String)
    (timeout : Nat) : Except ConditionTimeout (Unit × Session × Nat) :=
  match webDriverWait_until timeout .elementInvisible states
      (ec_invisibility_of_element_located xpath) with
  | .ok (_, s, k) => .ok ((), s, k)
  | .error e => .error e

/-- wait_selectable (src/rpa.py lines 170-177): wait for the element to be
selected and return the condition's boolean payload. -/
def wait_selectable (states : Nat → Session) (xpath : String)
    (timeout : Nat) : Except ConditionTimeout (Bool × Session × Nat) :=
  webDriverWait_until timeout .elementSelected states
    (ec_element_to_be_selected xpath)

/-- wait_text_attribute (src/rpa.py lines 180-193): wait for the text to be
present in the element's attribute; no return statement. -/
def wait_text_attribute (states : Nat → Session)
    (xpath attrName text : String) (timeout : Nat) :
    Except ConditionTimeout (Unit × Session × Nat) :=
  match webDriverWait_until timeout .attributeContainsText states
      (ec_text_to_be_present_in_element_attribute xpath attrName text) with
  | .ok (_, s, k) => .ok ((), s, k)
  | .error e => .error e

/-- wait_partial_url (src/rpa.py lines 196-203): wait for the current URL to
contain the given substring; no return statement. -/
def wait_partial_url (states : Nat → Session) (url : String) (timeout : Nat) :
    Except ConditionTimeout (Unit × Session × Nat) :=
  match webDriverWait_until timeout .urlContains states
      (ec_url_contains url) with
  | .ok (_, s, k) => .ok ((), s, k)
  | .error e => .error e

/-- wait_visibility (src/rpa.py lines 206-213): wait for the element to be
visible and return it (the source does return the until result despite its
None annotation). -/
def wait_visibility (states : Nat → Session) (xpath : String)
    (timeout : Nat) : Except ConditionTimeout (WebElement × Session × Nat) :=
  webDriverWait_until timeout .elementVisible states
    (ec_visibility_of_element_located xpath)

/-- wait_all_visible (src/rpa.py lines 216-225): wait for all matching
elements to be visible and return the list. -/
def wait_all_visible (states : Nat → Session) (xpath : String)
    (timeout : Nat) :
    Except ConditionTimeout (List WebElement × Session × Nat) :=
  webDriverWait_until timeout .allElementsVisible states
    (ec_visibility_of_all_elements_located xpath)

/-- wait_new_window (src/rpa.py lines 228-234): wait for a new window to be
opened relative to the handles sampled at call time (tick 0); no return
statement. -/
def wait_new_window (states : Nat → Session) (timeout : Nat) :
    Except ConditionTimeout (Unit × Session × Nat) :=
  match webDriverWait_until timeout .newWindowOpened states
      (ec_new_window_is_opened ((states 0).windowCount)) with
  | .ok (_, s, k) => .ok ((), s, k)
  | .error e => .error e

/-- find (src/rpa.py lines 237-245): delegate to wait_visibility. -/
def find (states : Nat → Session) (xpath : String) (timeout : Nat) :
    Except ConditionTimeout (WebElement × Session × Nat) :=
  wait_visibility states xpath timeout

/-- is_not_selected (src/rpa.py lines 311-319): first look the element up
with find called WITHOUT a timeout argument, hence with the module default
of 12; then wait with the caller-supplied timeout for the selection state of
that element to be False.  A timeout of the inner lookup propagates. -/
def is_not_selected (states : Nat → Session) (xpath : String)
    (timeout : Nat) : Except ConditionTimeout (Bool × Session × Nat) :=
  match find states xpath default_timeout with
  | .error e => .error e
  | .ok (e, _, _) =>
    webDriverWait_until timeout .elementSelectionState states
      (ec_element_selection_state_to_be e false)

/-- Instance of a WebDriverWait as constructed by get_wait (src/rpa.py line
125): it holds the driver it polls, the timeout, and poll frequency 1. -/
structure WebDriverWaitObj where
  driverId : Nat
  timeout : Nat
  poll_frequency : Nat
deriving DecidableEq, Repr

/-- Modelled from the spec: the process-wide memo tables installed by the
functools cache decorator on get_driver and get_wait: the driver instance
(if already constructed, named by an identity token), the WebDriverWait
instance constructed for each distinct timeout argument, and a supply of
fresh identity tokens. -/
structure ModuleCache where
  driver : Option Nat
  waits : List (Nat × WebDriverWaitObj)
  nextId : Nat
deriving DecidableEq, Repr

/-- get_driver (src/rpa.py lines 48-93) under the cache decorator: return
the cached Chrome instance if one exists, otherwise construct one (a fresh
identity token) and cache it. -/
def get_driver (c : ModuleCache) : Nat × ModuleCache :=
  match c.driver with
  | some d => (d, c)
  | none =>
    (c.nextId, { c with driver := some c.nextId, nextId := c.nextId + 1 })

/-- get_wait (src/rpa.py lines 115-126) under the cache decorator: return
the cached WebDriverWait for this timeout if one exists, otherwise build
WebDriverWait(get_driver(), timeout, 1) and cache it under this timeout. -/
def get_wait (c : ModuleCache) (t : Nat) : WebDriverWaitObj × ModuleCache :=
  match c.waits.find? (fun p => p.1 == t) with
  | some p => (p.2, c)
  | none =>
    let d := get_driver c
    let w : WebDriverWaitObj := ⟨d.1, t, 1⟩
    (w, { d.2 with waits := (t, w) :: d.2.waits })

/-- Consistency of the memo tables: every cached WebDriverWait is keyed by
its own timeout, polls every 1 time unit, and wraps the cached driver. -/
def CacheWf (c : ModuleCache) : Prop :=
  ∀ t w, (t, w) ∈ c.waits →
    w.timeout = t ∧ w.poll_frequency = 1 ∧ c.driver = some w.driverId

/-- Memo state of a freshly imported module: nothing cached yet. -/
def cache0 : ModuleCache := ⟨none, [], 0⟩

end Rpa

namespace Rpa

/-- Invariant of the polling loop of wait_download at the start of an
iteration: either no reading has happened yet and the state is the initial
sentinel state, or readings 0..m have happened, the state stores reading m
and its equal_readings count, and the number of sleeps is m + 1 when the
loop is about to continue and m when it is about to stop. -/
def PollInv (sizes : Nat → Int) (maxEq i : Nat) (s : ProbeState)
    (sleeps : Nat) : Prop :=
  (i = 0 ∧ s = ⟨-1, 0⟩ ∧ sleeps = 0) ∨
  (∃ m, i = m + 1 ∧ s = ⟨sizes m, eqAt sizes m⟩ ∧
    sleeps = if eqAt sizes m < maxEq then m + 1 else m)

/-- Filesystem trace on which the file exists from the start. -/
def fileAlways : Nat → Bool := fun _ => true

/-- Filesystem trace on which the file never exists. -/
def fileNever : Nat → Bool := fun _ => false

/-- Size trace of the spec's worked example: one reading of 100, then 150
forever. -/
def sizesSpecEx : Nat → Int := fun n => if n = 0 then 100 else 150

/-- Size trace whose eventual constant value is also its very first
reading: 5, 7, 5, 5, 5, .... -/
def sizesCex : Nat → Int := fun n => if n = 1 then 7 else 5

/-- Constant size trace. -/
def sizesConst : Nat → Int := fun _ => 5

/-- Strictly growing size trace: no two consecutive readings agree. -/
def sizesGrow : Nat → Int := fun n => (n : Int)

/-- Sample XPath locator used by concrete instances. -/
def xp0 : String := "//div"

/-- Element that is displayed and enabled but not selected. -/
def elemVis : WebElement :=
  { displayed := true, enabled := true, selected := false
    getAttr := fun _ => xp0 }

/-- Element that is displayed, enabled and selected. -/
def elemSel : WebElement :=
  { displayed := true, enabled := true, selected := true
    getAttr := fun _ => xp0 }

/-- Session with no elements, no alert, no frames. -/
def sessEmpty : Session :=
  { currentUrl := xp0, alertShown := false, framesAvailable := fun _ => false
    context := none, windowCount := 1, elems := fun _ => [] }

/-- Session where every locator matches the one visible element and every
frame is available. -/
def sessFull : Session :=
  { currentUrl := xp0, alertShown := true, framesAvailable := fun _ => true
    context := none, windowCount := 2, elems := fun _ => [elemVis] }

/-- Session where every locator matches the one selected element. -/
def sessSel : Session :=
  { sessFull with elems := fun _ => [elemSel] }

/-- Constant session trace with no matching elements. -/
def statesEmpty : Nat → Session := fun _ => sessEmpty

/-- Constant session trace where conditions hold immediately. -/
def statesFull : Nat → Session := fun _ => sessFull

/-- Constant session trace with a selected element. -/
def statesSel : Nat → Session := fun _ => sessSel

end Rpa

namespace Rpa

/-- Unfolding of one continuing iteration of the polling loop. -/
theorem pollRun_succ_lt (sizes : Nat → Int) (maxEq fuel i sleeps : Nat)
    (s : ProbeState) (h : s.equal_readings < maxEq) :
    pollRun sizes maxEq (fuel + 1) s i sleeps =
      pollRun sizes maxEq fuel (pollTick s (sizes i)) (i + 1)
        (if (pollTick s (sizes i)).equal_readings < maxEq then sleeps + 1
         else sleeps) := by
  simp [pollRun, h]

/-- Unfolding of the exiting iteration of the polling loop. -/
theorem pollRun_succ_exit (sizes : Nat → Int) (maxEq fuel i sleeps : Nat)
    (s : ProbeState) (h : ¬ s.equal_readings < maxEq) (hi : i ≠ 0) :
    pollRun sizes maxEq (fuel + 1) s i sleeps =
      .returned ⟨s.previous_size, i, sleeps⟩ := by
  simp [pollRun, h, hi]

/-- The tick body maps the traced loop state at reading n to the traced
loop state after reading n. -/
theorem pollTick_trace (sizes : Nat → Int) (n : Nat) :
    pollTick ⟨prevAt sizes n, eqBefore sizes n⟩ (sizes n) =
      ⟨sizes n, eqAt sizes n⟩ := by
  cases n with
  | zero => simp [pollTick, prevAt, eqBefore, eqAt]
  | succ m => simp [pollTick, prevAt, eqBefore, eqAt]

/-- As long as equal_readings has stayed below the threshold, running the
loop from the start is running it from the traced state at reading n, with
n readings and n sleeps behind it. -/
theorem pollRun_advance (sizes : Nat → Int) (maxEq : Nat) (hmax : 1 ≤ maxEq) :
    ∀ n fuel, (∀ j, j < n → eqAt sizes j < maxEq) →
      pollRun sizes maxEq (n + fuel) ⟨-1, 0⟩ 0 0 =
        pollRun sizes maxEq fuel ⟨prevAt sizes n, eqBefore sizes n⟩ n n := by
  intro n
  induction n with
  | zero =>
    intro fuel h
    rw [Nat.zero_add]
    rfl
  | succ m ih =>
    intro fuel h
    have h1 : ∀ j, j < m → eqAt sizes j < maxEq := fun j hj => h j (by omega)
    have e2 : m + 1 + fuel = m + (fuel + 1) := by omega
    rw [e2, ih (fuel + 1) h1]
    have hlt : (⟨prevAt sizes m, eqBefore sizes m⟩ : ProbeState).equal_readings
        < maxEq := by
      cases m with
      | zero => simpa [eqBefore] using hmax
      | succ p => simpa [eqBefore] using h p (by omega)
    rw [pollRun_succ_lt _ _ _ _ _ _ hlt, pollTick_trace]
    have hm : eqAt sizes m < maxEq := h m (by omega)
    simp [prevAt, eqBefore, hm]

/-- If equal_readings first reaches the threshold at reading m, the loop
returns reading m as the final size, having performed m + 1 readings and m
sleeps, for any sufficient fuel. -/
theorem pollRun_returns (sizes : Nat → Int) (maxEq m fuel : Nat)
    (hmax : 1 ≤ maxEq) (hlt : ∀ j, j < m → eqAt sizes j < maxEq)
    (hge : maxEq ≤ eqAt sizes m) :
    pollRun sizes maxEq (m + (fuel + 2)) ⟨-1, 0⟩ 0 0 =
      .returned ⟨sizes m, m + 1, m⟩ := by
  rw [pollRun_advance sizes maxEq hmax m (fuel + 2) hlt]
  have hlt2 : (⟨prevAt sizes m, eqBefore sizes m⟩ : ProbeState).equal_readings
      < maxEq := by
    cases m with
    | zero => simpa [eqBefore] using hmax
    | succ p => simpa [eqBefore] using hlt p (by omega)
  have e2 : fuel + 2 = (fuel + 1) + 1 := rfl
  rw [e2, pollRun_succ_lt _ _ _ _ _ _ hlt2, pollTick_trace]
  have hnlt : ¬ eqAt sizes m < maxEq := by omega
  simp only [hnlt, if_false]
  rw [pollRun_succ_exit _ _ _ _ _ _ (by simpa using hnlt) (by omega)]

/-- If equal_readings never reaches the threshold, the loop consumes any
amount of fuel without producing an outcome. -/
theorem pollRun_noFuel (sizes : Nat → Int) (maxEq : Nat) (hmax : 1 ≤ maxEq)
    (hall : ∀ j, eqAt sizes j < maxEq) :
    ∀ fuel n, pollRun sizes maxEq fuel ⟨prevAt sizes n, eqBefore sizes n⟩ n n
      = .outOfFuel := by
  intro fuel
  induction fuel with
  | zero => intro n; rfl
  | succ f ih =>
    intro n
    have hlt : (⟨prevAt sizes n, eqBefore sizes n⟩ : ProbeState).equal_readings
        < maxEq := by
      cases n with
      | zero => simpa [eqBefore] using hmax
      | succ p => simpa [eqBefore] using hall p
    rw [pollRun_succ_lt _ _ _ _ _ _ hlt, pollTick_trace]
    have h2 : eqAt sizes n < maxEq := hall n
    simpa [prevAt, eqBefore, h2] using ih (n + 1)

/-- A file that never exists keeps the waiting loop running at any fuel. -/
theorem waitFile_none (isfile : Nat → Bool) (h : ∀ t, isfile t = false) :
    ∀ fuel k, waitFile isfile fuel k = none := by
  intro fuel
  induction fuel with
  | zero => intro k; rfl
  | succ f ih => intro k; simp [waitFile, h k, ih (k + 1)]

/-- A file that exists at some tick inside the fuel window makes the waiting
loop stop. -/
theorem waitFile_exists (isfile : Nat → Bool) :
    ∀ fuel k, (∃ t, k ≤ t ∧ t < k + fuel ∧ isfile t = true) →
      ∃ u, waitFile isfile fuel k = some u := by
  intro fuel
  induction fuel with
  | zero =>
    intro k h
    obtain ⟨t, h1, h2, _⟩ := h
    omega
  | succ f ih =>
    intro k h
    obtain ⟨t, h1, h2, h3⟩ := h
    by_cases hk : isfile k = true
    · exact ⟨k, by simp [waitFile, hk]⟩
    · have hne : t ≠ k := by intro he; exact hk (he ▸ h3)
      obtain ⟨u, hu⟩ := ih (k + 1) ⟨t, by omega, by omega, h3⟩
      exact ⟨u, by simp [waitFile, hk, hu]⟩

/-- Inversion: any returned outcome of the polling loop, started anywhere on
the reachable-state invariant, is the traced outcome of a reading at which
equal_readings reached the threshold. -/
theorem pollRun_returned_inv (sizes : Nat → Int) (maxEq : Nat) :
    ∀ fuel i sleeps s r, PollInv sizes maxEq i s sleeps →
      pollRun sizes maxEq fuel s i sleeps = .returned r →
      ∃ m, r = ⟨sizes m, m + 1, m⟩ ∧ maxEq ≤ eqAt sizes m := by
  intro fuel
  induction fuel with
  | zero =>
    intro i sleeps s r _ h
    exact absurd h (by simp [pollRun])
  | succ f ih =>
    intro i sleeps s r hinv hrun
    by_cases hlt : s.equal_readings < maxEq
    · rw [pollRun_succ_lt _ _ _ _ _ _ hlt] at hrun
      refine ih (i + 1) _ (pollTick s (sizes i)) r ?_ hrun
      rcases hinv with ⟨hi, hs, hsl⟩ | ⟨m, hi, hs, hsl⟩
      · subst hi; subst hs; subst hsl
        right
        refine ⟨0, rfl, ?_, ?_⟩
        · simpa [prevAt, eqBefore] using pollTick_trace sizes 0
        · have e0 := pollTick_trace sizes 0
          simp only [prevAt, eqBefore] at e0
          rw [e0]
      · subst hi; subst hs
        have hm : eqAt sizes m < maxEq := by simpa using hlt
        right
        refine ⟨m + 1, rfl, ?_, ?_⟩
        · simpa [prevAt, eqBefore] using pollTick_trace sizes (m + 1)
        · have e1 := pollTick_trace sizes (m + 1)
          simp only [prevAt, eqBefore] at e1
          rw [e1, hsl, if_pos hm]
    · rcases hinv with ⟨hi, hs, hsl⟩ | ⟨m, hi, hs, hsl⟩
      · subst hi; subst hs
        have hr : pollRun sizes maxEq (f + 1) ⟨-1, 0⟩ 0 sleeps = .raised := by
          simp only [pollRun]
          rw [if_neg hlt]
          simp
        rw [hr] at hrun
        exact DlOutcome.noConfusion hrun
      · subst hi; subst hs
        have hge : maxEq ≤ eqAt sizes m := by simpa using Nat.le_of_not_lt (by simpa using hlt)
        rw [pollRun_succ_exit _ _ _ _ _ _ hlt (by omega)] at hrun
        have hsleeps : sleeps = m := by rw [hsl, if_neg (by omega)]
        refine ⟨m, ?_, hge⟩
        cases hrun
        simp [hsleeps]

/-- On non-negative size traces the stable counter after reading n is at
most n, since reading 0 is compared against the sentinel -1. -/
theorem eqAt_le (sizes : Nat → Int) (h0 : 0 ≤ sizes 0) :
    ∀ n, eqAt sizes n ≤ n := by
  intro n
  induction n with
  | zero =>
    have hne : sizes 0 ≠ -1 := by omega
    simp [eqAt, hne]
  | succ m ih =>
    by_cases h : sizes (m + 1) = sizes m
    · simp only [eqAt, if_pos h]
      omega
    · simp [eqAt, h]

end Rpa

namespace Rpa

/-- If the condition yields nothing at any tick of the window, the until
loop yields nothing. -/
theorem untilFrom_eq_none {α : Type} (cond : Session → Option (α × Session))
    (states : Nat → Session) :
    ∀ rem k, (∀ j, k ≤ j → j ≤ k + rem → cond (states j) = none) →
      untilFrom cond states k rem = none := by
  intro rem
  induction rem with
  | zero =>
    intro k h
    simp [untilFrom, h k (Nat.le_refl k) (by omega)]
  | succ m ih =>
    intro k h
    simp [untilFrom, h k (Nat.le_refl k) (by omega),
      ih (k + 1) (fun j h1 h2 => h j (by omega) (by omega))]

/-- Inversion of a failing until loop: the condition yielded nothing at
every tick of the window. -/
theorem untilFrom_none_spec {α : Type} (cond : Session → Option (α × Session))
    (states : Nat → Session) :
    ∀ rem k, untilFrom cond states k rem = none →
      ∀ j, k ≤ j → j ≤ k + rem → cond (states j) = none := by
  intro rem
  induction rem with
  | zero =>
    intro k h j h1 h2
    have hj : j = k := by omega
    subst hj
    cases hc : cond (states j) with
    | none => rfl
    | some p =>
      obtain ⟨a, s⟩ := p
      rw [untilFrom, hc] at h
      exact Option.noConfusion h
  | succ m ih =>
    intro k h j h1 h2
    cases hc : cond (states k) with
    | some p =>
      obtain ⟨a, s⟩ := p
      rw [untilFrom, hc] at h
      exact Option.noConfusion h
    | none =>
      rw [untilFrom, hc] at h
      by_cases hj : j = k
      · subst hj; exact hc
      · exact ih (k + 1) h j (by omega) (by omega)

/-- Inversion of a successful until loop: the payload and session come from
evaluating the condition at the success tick, which lies in the window. -/
theorem untilFrom_some_spec {α : Type} (cond : Session → Option (α × Session))
    (states : Nat → Session) :
    ∀ rem k a s j, untilFrom cond states k rem = some (a, s, j) →
      cond (states j) = some (a, s) ∧ k ≤ j ∧ j ≤ k + rem := by
  intro rem
  induction rem with
  | zero =>
    intro k a s j h
    cases hc : cond (states k) with
    | none =>
      rw [untilFrom, hc] at h
      exact Option.noConfusion h
    | some p =>
      obtain ⟨a0, s0⟩ := p
      rw [untilFrom, hc] at h
      simp only [Option.some.injEq, Prod.mk.injEq] at h
      obtain ⟨ha, hs, hj⟩ := h
      subst ha; subst hs; subst hj
      exact ⟨hc, Nat.le_refl k, by omega⟩
  | succ m ih =>
    intro k a s j h
    cases hc : cond (states k) with
    | some p =>
      obtain ⟨a0, s0⟩ := p
      rw [untilFrom, hc] at h
      simp only [Option.some.injEq, Prod.mk.injEq] at h
      obtain ⟨ha, hs, hj⟩ := h
      subst ha; subst hs; subst hj
      exact ⟨hc, Nat.le_refl k, by omega⟩
    | none =>
      rw [untilFrom, hc] at h
      obtain ⟨e1, e2, e3⟩ := ih (k + 1) a s j h
      exact ⟨e1, by omega, by omega⟩

/-- A wait fails with the ConditionTimeout of its kind and the full timeout
as elapsed duration when the condition yields nothing at every tick up to
the timeout. -/
theorem until_error_of {α : Type} (timeout : Nat) (kind : ConditionKind)
    (states : Nat → Session) (cond : Session → Option (α × Session))
    (h : ∀ k, k ≤ timeout → cond (states k) = none) :
    webDriverWait_until timeout kind states cond = .error ⟨kind, timeout⟩ := by
  have hn := untilFrom_eq_none cond states timeout 0
    (fun j h1 h2 => h j (by omega))
  simp [webDriverWait_until, hn]

/-- A wait whose condition yields a payload at some tick within the timeout
does not fail. -/
theorem until_ok_of {α : Type} (timeout : Nat) (kind : ConditionKind)
    (states : Nat → Session) (cond : Session → Option (α × Session))
    (h : ∃ k, k ≤ timeout ∧ cond (states k) ≠ none) :
    ∃ r, webDriverWait_until timeout kind states cond = .ok r := by
  obtain ⟨k, hk, hc⟩ := h
  cases hu : untilFrom cond states 0 timeout with
  | some r => exact ⟨r, by simp [webDriverWait_until, hu]⟩
  | none =>
    exact absurd (untilFrom_none_spec cond states timeout 0 hu k (by omega)
      (by omega)) hc

/-- Inversion of a successful wait: the payload and the resulting session
come from the condition evaluated at the success tick, which lies within
the timeout. -/
theorem until_ok_spec {α : Type} (timeout : Nat) (kind : ConditionKind)
    (states : Nat → Session) (cond : Session → Option (α × Session))
    (a : α) (s : Session) (k : Nat)
    (h : webDriverWait_until timeout kind states cond = .ok (a, s, k)) :
    cond (states k) = some (a, s) ∧ k ≤ timeout := by
  cases hu : untilFrom cond states 0 timeout with
  | none =>
    rw [webDriverWait_until, hu] at h
    exact Except.noConfusion h
  | some r =>
    rw [webDriverWait_until, hu] at h
    have hr : r = (a, s, k) := by injection h
    subst hr
    obtain ⟨e1, e2, e3⟩ := untilFrom_some_spec cond states timeout 0 a s k hu
    exact ⟨e1, by omega⟩

end Rpa

namespace Rpa

/-- A wait whose condition never modifies the session returns the session
state of the success tick unchanged. -/
theorem until_preserves {α : Type} (timeout : Nat) (kind : ConditionKind)
    (states : Nat → Session) (cond : Session → Option (α × Session))
    (hc : ∀ s a s2, cond s = some (a, s2) → s2 = s)
    (a : α) (s : Session) (k : Nat)
    (h : webDriverWait_until timeout kind states cond = .ok (a, s, k)) :
    s = states k := by
  obtain ⟨h1, _⟩ := until_ok_spec timeout kind states cond a s k h
  exact hc (states k) a s h1

/-- C1 (amended): for a stability threshold N ≥ 1 and a non-negative size
trace that is constant with value c from reading k onward, with k the first
reading of that final constant run (reading k - 1 differs when k > 0), and
with the stable counter staying below N over the prefix, wait_download
terminates once the file exists within the waiting fuel, returns exactly c,
and performs exactly k + N + 1 size readings, that is, the number of
readings up to and including the first reading of the final constant run
plus N (and k + N sleeps). -/
theorem C1_wait_download_eventually_constant (isfile : Nat → Bool)
    (sizes : Nat → Int) (N k : Nat) (c : Int) (t fw fp : Nat)
    (hN : 1 ≤ N) (hc : 0 ≤ c)
    (hex : isfile t = true) (hfw : t < fw)
    (htail : ∀ j, k ≤ j → sizes j = c)
    (hstart : k = 0 ∨ sizes (k - 1) ≠ c)
    (hquiet : ∀ j, j < k → eqAt sizes j < N)
    (hfp : k + N + 2 ≤ fp) :
    wait_download isfile sizes N fw fp = .returned ⟨c, k + N + 1, k + N⟩ := by
  have heq : ∀ u, eqAt sizes (k + u) = u := by
    intro u
    induction u with
    | zero =>
      cases hk : k with
      | zero =>
        subst hk
        have h0 : sizes 0 = c := htail 0 (Nat.le_refl 0)
        have hne : sizes 0 ≠ -1 := by rw [h0]; omega
        simp [eqAt, hne]
      | succ p =>
        subst hk
        have h1 : sizes (p + 1) = c := htail (p + 1) (Nat.le_refl _)
        have h2 : sizes p ≠ c := by
          rcases hstart with h | h
          · exact absurd h (by omega)
          · simpa using h
        have h3 : sizes (p + 1) ≠ sizes p := by
          rw [h1]; intro he; exact h2 he.symm
        simp [eqAt, h3]
    | succ u ih =>
      have h3 : sizes (k + u + 1) = sizes (k + u) := by
        rw [htail (k + u + 1) (by omega), htail (k + u) (by omega)]
      show eqAt sizes (k + u + 1) = u + 1
      simp [eqAt, h3, ih]
  have hm_lt : ∀ j, j < k + N → eqAt sizes j < N := by
    intro j hj
    by_cases hjk : j < k
    · exact hquiet j hjk
    · have e : j = k + (j - k) := by omega
      rw [e, heq]
      omega
  have hm_ge : N ≤ eqAt sizes (k + N) := by
    rw [heq N]
  obtain ⟨u, hu⟩ := waitFile_exists isfile fw 0 ⟨t, by omega, by omega, hex⟩
  obtain ⟨d, hd⟩ : ∃ d, fp = (k + N) + (d + 2) := ⟨fp - (k + N) - 2, by omega⟩
  have hc2 : sizes (k + N) = c := htail _ (by omega)
  rw [hd]
  simp only [wait_download, hu]
  rw [← hc2]
  exact pollRun_returns sizes N (k + N) d hN hm_lt hm_ge

/-- C1 witness: the spec's worked example, sizes 100, 150, 150, ... with
threshold 3: returns 150 after 5 readings (= 1 + 3 + 1) and 4 sleeps. -/
theorem C1_witness :
    wait_download fileAlways sizesSpecEx 3 1 6 = .returned ⟨150, 5, 4⟩ := by
  have h := C1_wait_download_eventually_constant fileAlways sizesSpecEx 3 1 150
    0 1 6 (by omega) (by omega) rfl (by omega)
    (fun j hj => by
      unfold sizesSpecEx
      rw [if_neg (by omega)])
    (Or.inr (by decide))
    (fun j hj => by
      have hj0 : j = 0 := by omega
      subst hj0
      decide)
    (by omega)
  simpa using h

/-- C1 counterexample: with threshold N = 1 and size trace 5, 7, 5, 5, ...
the watcher performs 4 readings, but the constant value 5 is first read at
index 0 (tick 1), so the claimed total, the index of the first reading of
the constant value plus N, is 1 (0-based) or 2 (1-based), not 4. -/
theorem C1_cex :
    wait_download fileAlways sizesCex 1 1 6 = .returned ⟨5, 4, 3⟩ ∧
    sizesCex 0 = 5 ∧ sizesCex 1 = 7 ∧ sizesCex 2 = 5 ∧ sizesCex 3 = 5 ∧
    (4 : Nat) ≠ 0 + 1 ∧ (4 : Nat) ≠ 0 + 1 + 1 := by
  decide

/-- C2: each polling tick increments equal_readings by one when the current
size equals the previous one and resets it to 0 otherwise, always stores
the current size as the previous size, and the loop of wait_download runs
exactly this tick body each iteration. -/
theorem C2_poll_tick_update (sizes : Nat → Int) (maxEq fuel i sleeps : Nat)
    (s : ProbeState) (cur : Int) :
    ((cur = s.previous_size →
        (pollTick s cur).equal_readings = s.equal_readings + 1) ∧
      (cur ≠ s.previous_size → (pollTick s cur).equal_readings = 0) ∧
      (pollTick s cur).previous_size = cur) ∧
    (s.equal_readings < maxEq →
      pollRun sizes maxEq (fuel + 1) s i sleeps =
        pollRun sizes maxEq fuel (pollTick s (sizes i)) (i + 1)
          (if (pollTick s (sizes i)).equal_readings < maxEq then sleeps + 1
           else sleeps)) := by
  refine ⟨⟨?_, ?_, rfl⟩, ?_⟩
  · intro h; simp [pollTick, h]
  · intro h; simp [pollTick, h]
  · intro h; exact pollRun_succ_lt sizes maxEq fuel i sleeps s h

/-- C2 witness: concrete ticks at state (previous 5, counter 2). -/
theorem C2_witness :
    (pollTick ⟨5, 2⟩ 5).equal_readings = 2 + 1 ∧
    (pollTick ⟨5, 2⟩ 6).equal_readings = 0 ∧
    (pollTick ⟨5, 2⟩ 6).previous_size = 6 :=
  ⟨(C2_poll_tick_update sizesConst 3 0 0 0 ⟨5, 2⟩ 5).1.1 rfl,
   (C2_poll_tick_update sizesConst 3 0 0 0 ⟨5, 2⟩ 6).1.2.1 (by decide),
   (C2_poll_tick_update sizesConst 3 0 0 0 ⟨5, 2⟩ 6).1.2.2⟩

/-- C3: a file that never appears keeps wait_download in the waiting loop at
every fuel, and (for threshold ≥ 1, non-negative sizes) a size trace that
never repeats consecutively keeps it in the polling loop at every fuel; in
both cases no outcome — neither a return nor a raise — is ever produced. -/
theorem C3_wait_download_waits_forever (isfile : Nat → Bool)
    (sizes : Nat → Int) (maxEq : Nat) :
    ((∀ t, isfile t = false) → ∀ fw fp,
        wait_download isfile sizes maxEq fw fp = .outOfFuel) ∧
    (1 ≤ maxEq → 0 ≤ sizes 0 → (∀ n, sizes (n + 1) ≠ sizes n) → ∀ fw fp,
        wait_download isfile sizes maxEq fw fp = .outOfFuel) := by
  constructor
  · intro h fw fp
    simp [wait_download, waitFile_none isfile h fw 0]
  · intro hmax h0 hnr fw fp
    have hall : ∀ j, eqAt sizes j < maxEq := by
      intro j
      have hz : eqAt sizes j = 0 := by
        cases j with
        | zero =>
          have hne : sizes 0 ≠ -1 := by omega
          simp [eqAt, hne]
        | succ n => simp [eqAt, hnr n]
      omega
    have hp := pollRun_noFuel sizes maxEq hmax hall fp 0
    simp only [prevAt, eqBefore] at hp
    cases hw : waitFile isfile fw 0 with
    | none => simp [wait_download, hw]
    | some u => simpa [wait_download, hw] using hp

/-- C3 witness: with the strictly growing size trace, both the missing-file
run and the existing-file run are still going at concrete fuels. -/
theorem C3_witness :
    wait_download fileNever sizesGrow 3 5 9 = .outOfFuel ∧
    wait_download fileAlways sizesGrow 3 5 9 = .outOfFuel :=
  ⟨(C3_wait_download_waits_forever fileNever sizesGrow 3).1 (fun t => rfl) 5 9,
   (C3_wait_download_waits_forever fileAlways sizesGrow 3).2 (by omega)
     (by decide) (fun n => by simp only [sizesGrow]; omega) 5 9⟩

/-- C4: on non-negative size traces the first reading never increments the
stable counter (it is compared against the sentinel -1), and consequently
every terminating run performs at least max_equal_readings + 1 readings. -/
theorem C4_min_readings (isfile : Nat → Bool) (sizes : Nat → Int)
    (maxEq fw fp : Nat) (r : PollResult)
    (hnn : ∀ j, 0 ≤ sizes j)
    (hret : wait_download isfile sizes maxEq fw fp = .returned r) :
    (pollTick ⟨-1, 0⟩ (sizes 0)).equal_readings = 0 ∧
    maxEq + 1 ≤ r.readings := by
  constructor
  · have hne : sizes 0 ≠ -1 := by have := hnn 0; omega
    simp [pollTick, hne]
  · cases hw : waitFile isfile fw 0 with
    | none =>
      simp only [wait_download, hw] at hret
      exact DlOutcome.noConfusion hret
    | some u =>
      simp only [wait_download, hw] at hret
      obtain ⟨m, hr, hge⟩ := pollRun_returned_inv sizes maxEq fp 0 0 ⟨-1, 0⟩ r
        (Or.inl ⟨rfl, rfl, rfl⟩) hret
      have hle := eqAt_le sizes (hnn 0) m
      subst hr
      simp only [PollResult.readings]
      omega

/-- C4 witness: constant sizes with threshold 2 terminate after 3 readings,
one more than the threshold. -/
theorem C4_witness :
    (pollTick ⟨-1, 0⟩ (sizesConst 0)).equal_readings = 0 ∧
    2 + 1 ≤ (⟨5, 3, 2⟩ : PollResult).readings :=
  C4_min_readings fileAlways sizesConst 2 1 4 ⟨5, 3, 2⟩
    (fun j => by norm_num [sizesConst]) (by decide)

/-- C9: in every terminating run of the polling phase the number of
check_interval sleeps is the number of size readings minus one: the loop
sleeps between consecutive readings but not after the final one. -/
theorem C9_sleeps_readings (isfile : Nat → Bool) (sizes : Nat → Int)
    (maxEq fw fp : Nat) (r : PollResult)
    (hret : wait_download isfile sizes maxEq fw fp = .returned r) :
    r.sleeps + 1 = r.readings := by
  cases hw : waitFile isfile fw 0 with
  | none =>
    simp only [wait_download, hw] at hret
    exact DlOutcome.noConfusion hret
  | some u =>
    simp only [wait_download, hw] at hret
    obtain ⟨m, hr, _⟩ := pollRun_returned_inv sizes maxEq fp 0 0 ⟨-1, 0⟩ r
      (Or.inl ⟨rfl, rfl, rfl⟩) hret
    subst hr
    rfl

/-- C9 witness: the terminating constant-size run has 3 readings and 2
sleeps. -/
theorem C9_witness :
    (⟨5, 3, 2⟩ : PollResult).sleeps + 1 = (⟨5, 3, 2⟩ : PollResult).readings :=
  C9_sleeps_readings fileAlways sizesConst 2 1 4 ⟨5, 3, 2⟩ (by decide)

end Rpa

namespace Rpa

/-- The alert condition never modifies the session. -/
theorem ec_alert_preserves :
    ∀ s a s2, ec_alert_is_present s = some (a, s2) → s2 = s := by
  intro s a s2 h
  unfold ec_alert_is_present at h
  split at h
  · simp only [Option.some.injEq, Prod.mk.injEq] at h
    exact h.2.symm
  · exact Option.noConfusion h

/-- The clickable condition never modifies the session. -/
theorem ec_clickable_preserves (x : String) :
    ∀ s a s2, ec_element_to_be_clickable x s = some (a, s2) → s2 = s := by
  intro s a s2 h
  unfold ec_element_to_be_clickable at h
  split at h
  · simp only [Option.some.injEq, Prod.mk.injEq] at h
    exact h.2.symm
  · exact Option.noConfusion h

/-- The invisibility condition never modifies the session. -/
theorem ec_invisibility_preserves (x : String) :
    ∀ s a s2, ec_invisibility_of_element_located x s = some (a, s2) → s2 = s := by
  intro s a s2 h
  unfold ec_invisibility_of_element_located at h
  split at h
  · simp only [Option.some.injEq, Prod.mk.injEq] at h
    exact h.2.symm
  · exact Option.noConfusion h

/-- The selected condition never modifies the session. -/
theorem ec_selected_preserves (x : String) :
    ∀ s a s2, ec_element_to_be_selected x s = some (a, s2) → s2 = s := by
  intro s a s2 h
  unfold ec_element_to_be_selected at h
  split at h
  · simp only [Option.some.injEq, Prod.mk.injEq] at h
    exact h.2.symm
  · exact Option.noConfusion h

/-- The attribute-text condition never modifies the session. -/
theorem ec_text_attr_preserves (x u text : String) :
    ∀ s a s2, ec_text_to_be_present_in_element_attribute x u text s
      = some (a, s2) → s2 = s := by
  intro s a s2 h
  unfold ec_text_to_be_present_in_element_attribute at h
  split at h
  · split at h
    · simp only [Option.some.injEq, Prod.mk.injEq] at h
      exact h.2.symm
    · exact Option.noConfusion h
  · exact Option.noConfusion h

/-- The url condition never modifies the session. -/
theorem ec_url_preserves (u : String) :
    ∀ s a s2, ec_url_contains u s = some (a, s2) → s2 = s := by
  intro s a s2 h
  unfold ec_url_contains at h
  split at h
  · simp only [Option.some.injEq, Prod.mk.injEq] at h
    exact h.2.symm
  · exact Option.noConfusion h

/-- The visibility condition never modifies the session. -/
theorem ec_visibility_preserves (x : String) :
    ∀ s a s2, ec_visibility_of_element_located x s = some (a, s2) → s2 = s := by
  intro s a s2 h
  unfold ec_visibility_of_element_located at h
  split at h
  · simp only [Option.some.injEq, Prod.mk.injEq] at h
    exact h.2.symm
  · exact Option.noConfusion h

/-- The all-visible condition never modifies the session. -/
theorem ec_all_visible_preserves (x : String) :
    ∀ s a s2, ec_visibility_of_all_elements_located x s = some (a, s2)
      → s2 = s := by
  intro s a s2 h
  unfold ec_visibility_of_all_elements_located at h
  split at h
  · simp only [Option.some.injEq, Prod.mk.injEq] at h
    exact h.2.symm
  · exact Option.noConfusion h

/-- The new-window condition never modifies the session. -/
theorem ec_new_window_preserves (n : Nat) :
    ∀ s a s2, ec_new_window_is_opened n s = some (a, s2) → s2 = s := by
  intro s a s2 h
  unfold ec_new_window_is_opened at h
  split at h
  · simp only [Option.some.injEq, Prod.mk.injEq] at h
    exact h.2.symm
  · exact Option.noConfusion h

/-- The selection-state condition never modifies the session. -/
theorem ec_sel_state_preserves (e : WebElement) (b : Bool) :
    ∀ s a s2, ec_element_selection_state_to_be e b s = some (a, s2)
      → s2 = s := by
  intro s a s2 h
  unfold ec_element_selection_state_to_be at h
  split at h
  · simp only [Option.some.injEq, Prod.mk.injEq] at h
    exact h.2.symm
  · exact Option.noConfusion h

/-- C5: shown for wait_clickable, wait_visibility and wait_frame — when the
condition yields nothing at every tick within the timeout the wait fails
with the ConditionTimeout of its kind carrying the elapsed timeout, the
only error the model can produce; when the condition becomes true within
the timeout, no error is raised. -/
theorem C5_timeout_only_error (states : Nat → Session) (x : String)
    (timeout : Nat) :
    ((∀ k, k ≤ timeout → ec_element_to_be_clickable x (states k) = none) →
        wait_clickable states x timeout =
          .error ⟨.elementClickable, timeout⟩) ∧
    ((∃ k, k ≤ timeout ∧ ec_element_to_be_clickable x (states k) ≠ none) →
        ∃ r, wait_clickable states x timeout = .ok r) ∧
    ((∀ k, k ≤ timeout →
        ec_visibility_of_element_located x (states k) = none) →
        wait_visibility states x timeout =
          .error ⟨.elementVisible, timeout⟩) ∧
    ((∃ k, k ≤ timeout ∧
        ec_visibility_of_element_located x (states k) ≠ none) →
        ∃ r, wait_visibility states x timeout = .ok r) ∧
    ((∀ k, k ≤ timeout →
        ec_frame_to_be_available_and_switch_to_it x (states k) = none) →
        wait_frame states x timeout = .error ⟨.frameAvailable, timeout⟩) ∧
    ((∃ k, k ≤ timeout ∧
        ec_frame_to_be_available_and_switch_to_it x (states k) ≠ none) →
        ∃ r, wait_frame states x timeout = .ok r) := by
  refine ⟨?_, ?_, ?_, ?_, ?_, ?_⟩
  · intro h
    exact until_error_of timeout .elementClickable states _ h
  · intro h
    exact until_ok_of timeout .elementClickable states _ h
  · intro h
    exact until_error_of timeout .elementVisible states _ h
  · intro h
    exact until_ok_of timeout .elementVisible states _ h
  · intro h
    have he := until_error_of timeout .frameAvailable states
      (ec_frame_to_be_available_and_switch_to_it x) h
    simp [wait_frame, he]
  · intro h
    obtain ⟨r, hr⟩ := until_ok_of timeout .frameAvailable states
      (ec_frame_to_be_available_and_switch_to_it x) h
    obtain ⟨a, s, kk⟩ := r
    exact ⟨((), s, kk), by simp [wait_frame, hr]⟩

/-- C5 witness: with no matching element the clickable wait times out after
3 units with its kind, and with an available frame the frame wait succeeds. -/
theorem C5_witness :
    wait_clickable statesEmpty xp0 3 = .error ⟨.elementClickable, 3⟩ ∧
    (∃ r, wait_frame statesFull xp0 3 = .ok r) :=
  ⟨(C5_timeout_only_error statesEmpty xp0 3).1 (fun k hk => rfl),
   (C5_timeout_only_error statesFull xp0 3).2.2.2.2.2
     ⟨0, by omega, by
       simp [ec_frame_to_be_available_and_switch_to_it, statesFull,
         sessFull]⟩⟩

/-- C6: on success wait_visibility and wait_clickable return a discovered
element of the page (satisfying the condition), wait_all_visible returns
the ordered sequence of matching elements, all of them displayed, and
wait_selectable returns the boolean true. -/
theorem C6_success_payloads (states : Nat → Session) (x : String)
    (timeout : Nat) :
    (∀ e s k, wait_visibility states x timeout = .ok (e, s, k) →
        e ∈ (states k).elems x ∧ e.displayed = true) ∧
    (∀ e s k, wait_clickable states x timeout = .ok (e, s, k) →
        e ∈ (states k).elems x ∧ e.displayed = true ∧ e.enabled = true) ∧
    (∀ l s k, wait_all_visible states x timeout = .ok (l, s, k) →
        l = (states k).elems x ∧ ∀ e ∈ l, e.displayed = true) ∧
    (∀ b s k, wait_selectable states x timeout = .ok (b, s, k) →
        b = true) := by
  refine ⟨?_, ?_, ?_, ?_⟩
  · intro e s k h
    obtain ⟨h1, _⟩ := until_ok_spec _ _ _ _ _ _ _ h
    unfold ec_visibility_of_element_located at h1
    cases hf : ((states k).elems x).find? (fun e => e.displayed) with
    | none => rw [hf] at h1; exact Option.noConfusion h1
    | some e0 =>
      rw [hf] at h1
      simp only [Option.some.injEq, Prod.mk.injEq] at h1
      obtain ⟨he, -⟩ := h1
      subst he
      exact ⟨List.mem_of_find?_eq_some hf, List.find?_some hf⟩
  · intro e s k h
    obtain ⟨h1, _⟩ := until_ok_spec _ _ _ _ _ _ _ h
    unfold ec_element_to_be_clickable at h1
    cases hf : ((states k).elems x).find? (fun e => e.displayed && e.enabled)
      with
    | none => rw [hf] at h1; exact Option.noConfusion h1
    | some e0 =>
      rw [hf] at h1
      simp only [Option.some.injEq, Prod.mk.injEq] at h1
      obtain ⟨he, -⟩ := h1
      subst he
      have hp := List.find?_some hf
      simp only [Bool.and_eq_true] at hp
      exact ⟨List.mem_of_find?_eq_some hf, hp.1, hp.2⟩
  · intro l s k h
    obtain ⟨h1, _⟩ := until_ok_spec _ _ _ _ _ _ _ h
    unfold ec_visibility_of_all_elements_located at h1
    by_cases hcond : (!((states k).elems x).isEmpty &&
        ((states k).elems x).all (fun e => e.displayed)) = true
    · rw [if_pos hcond] at h1
      simp only [Option.some.injEq, Prod.mk.injEq] at h1
      obtain ⟨hl, -⟩ := h1
      refine ⟨hl.symm, ?_⟩
      intro e he
      rw [← hl] at he
      simp only [Bool.and_eq_true] at hcond
      exact List.all_eq_true.1 hcond.2 e he
    · rw [if_neg hcond] at h1
      exact Option.noConfusion h1
  · intro b s k h
    obtain ⟨h1, _⟩ := until_ok_spec _ _ _ _ _ _ _ h
    unfold ec_element_to_be_selected at h1
    cases hf : ((states k).elems x).find? (fun e => e.selected) with
    | none => rw [hf] at h1; exact Option.noConfusion h1
    | some e0 =>
      rw [hf] at h1
      simp only [Option.some.injEq, Prod.mk.injEq] at h1
      exact h1.1.symm

/-- C6 witness: concrete successful runs of the visibility and the
selected waits. -/
theorem C6_witness :
    (elemVis ∈ (statesFull 0).elems xp0 ∧ elemVis.displayed = true) ∧
    true = true :=
  ⟨(C6_success_payloads statesFull xp0 3).1 elemVis sessFull 0 rfl,
   (C6_success_payloads statesSel xp0 3).2.2.2 true sessSel 0 rfl⟩

end Rpa

namespace Rpa

/-- C7: a successful wait_frame switches the active execution context of
the session to the awaited frame, and every other wait operation leaves the
active execution context exactly as it was at its success tick. -/
theorem C7_only_frame_switches_context (states : Nat → Session)
    (x u v text : String) (timeout : Nat) :
    (∀ s k, wait_frame states x timeout = .ok ((), s, k) →
        s.context = some x) ∧
    (∀ s k, wait_alert states timeout = .ok ((), s, k) →
        s.context = (states k).context) ∧
    (∀ e s k, wait_clickable states x timeout = .ok (e, s, k) →
        s.context = (states k).context) ∧
    (∀ s k, wait_invisibility states x timeout = .ok ((), s, k) →
        s.context = (states k).context) ∧
    (∀ b s k, wait_selectable states x timeout = .ok (b, s, k) →
        s.context = (states k).context) ∧
    (∀ s k, wait_text_attribute states x u text timeout = .ok ((), s, k) →
        s.context = (states k).context) ∧
    (∀ s k, wait_partial_url states v timeout = .ok ((), s, k) →
        s.context = (states k).context) ∧
    (∀ e s k, wait_visibility states x timeout = .ok (e, s, k) →
        s.context = (states k).context) ∧
    (∀ l s k, wait_all_visible states x timeout = .ok (l, s, k) →
        s.context = (states k).context) ∧
    (∀ s k, wait_new_window states timeout = .ok ((), s, k) →
        s.context = (states k).context) := by
  refine ⟨?_, ?_, ?_, ?_, ?_, ?_, ?_, ?_, ?_, ?_⟩
  · intro s k h
    unfold wait_frame at h
    cases hu : webDriverWait_until timeout .frameAvailable states
        (ec_frame_to_be_available_and_switch_to_it x) with
    | error e => rw [hu] at h; exact Except.noConfusion h
    | ok r =>
      obtain ⟨b, s0, k0⟩ := r
      rw [hu] at h
      simp only [Except.ok.injEq, Prod.mk.injEq, true_and] at h
      obtain ⟨hs, hk⟩ := h
      subst hs; subst hk
      obtain ⟨h1, -⟩ := until_ok_spec _ _ _ _ _ _ _ hu
      unfold ec_frame_to_be_available_and_switch_to_it at h1
      split at h1
      · simp only [Option.some.injEq, Prod.mk.injEq] at h1
        rw [← h1.2]
      · exact Option.noConfusion h1
  · intro s k h
    unfold wait_alert at h
    cases hu : webDriverWait_until timeout .alertPresent states
        ec_alert_is_present with
    | error e => rw [hu] at h; exact Except.noConfusion h
    | ok r =>
      obtain ⟨b, s0, k0⟩ := r
      rw [hu] at h
      simp only [Except.ok.injEq, Prod.mk.injEq, true_and] at h
      obtain ⟨hs, hk⟩ := h
      subst hs; subst hk
      rw [until_preserves _ _ _ _ ec_alert_preserves _ _ _ hu]
  · intro e s k h
    rw [until_preserves _ _ _ _ (ec_clickable_preserves x) _ _ _ h]
  · intro s k h
    unfold wait_invisibility at h
    cases hu : webDriverWait_until timeout .elementInvisible states
        (ec_invisibility_of_element_located x) with
    | error e => rw [hu] at h; exact Except.noConfusion h
    | ok r =>
      obtain ⟨b, s0, k0⟩ := r
      rw [hu] at h
      simp only [Except.ok.injEq, Prod.mk.injEq, true_and] at h
      obtain ⟨hs, hk⟩ := h
      subst hs; subst hk
      rw [until_preserves _ _ _ _ (ec_invisibility_preserves x) _ _ _ hu]
  · intro b s k h
    rw [until_preserves _ _ _ _ (ec_selected_preserves x) _ _ _ h]
  · intro s k h
    unfold wait_text_attribute at h
    cases hu : webDriverWait_until timeout .attributeContainsText states
        (ec_text_to_be_present_in_element_attribute x u text) with
    | error e => rw [hu] at h; exact Except.noConfusion h
    | ok r =>
      obtain ⟨b, s0, k0⟩ := r
      rw [hu] at h
      simp only [Except.ok.injEq, Prod.mk.injEq, true_and] at h
      obtain ⟨hs, hk⟩ := h
      subst hs; subst hk
      rw [until_preserves _ _ _ _ (ec_text_attr_preserves x u text) _ _ _ hu]
  · intro s k h
    unfold wait_partial_url at h
    cases hu : webDriverWait_until timeout .urlContains states
        (ec_url_contains v) with
    | error e => rw [hu] at h; exact Except.noConfusion h
    | ok r =>
      obtain ⟨b, s0, k0⟩ := r
      rw [hu] at h
      simp only [Except.ok.injEq, Prod.mk.injEq, true_and] at h
      obtain ⟨hs, hk⟩ := h
      subst hs; subst hk
      rw [until_preserves _ _ _ _ (ec_url_preserves v) _ _ _ hu]
  · intro e s k h
    rw [until_preserves _ _ _ _ (ec_visibility_preserves x) _ _ _ h]
  · intro l s k h
    rw [until_preserves _ _ _ _ (ec_all_visible_preserves x) _ _ _ h]
  · intro s k h
    unfold wait_new_window at h
    cases hu : webDriverWait_until timeout .newWindowOpened states
        (ec_new_window_is_opened ((states 0).windowCount)) with
    | error e => rw [hu] at h; exact Except.noConfusion h
    | ok r =>
      obtain ⟨b, s0, k0⟩ := r
      rw [hu] at h
      simp only [Except.ok.injEq, Prod.mk.injEq, true_and] at h
      obtain ⟨hs, hk⟩ := h
      subst hs; subst hk
      rw [until_preserves _ _ _ _
        (ec_new_window_preserves ((states 0).windowCount)) _ _ _ hu]

/-- C7 witness: a concrete frame wait ends with the context switched to the
frame's locator, while a concrete visibility wait leaves it unchanged. -/
theorem C7_witness :
    ({ sessFull with context := some xp0 } : Session).context = some xp0 ∧
    sessFull.context = (statesFull 0).context :=
  ⟨(C7_only_frame_switches_context statesFull xp0 xp0 xp0 xp0 2).1
      { sessFull with context := some xp0 } 0 rfl,
   (C7_only_frame_switches_context statesFull xp0 xp0 xp0 xp0 2).2.2.2.2.2.2.2.1
      elemVis sessFull 0 rfl⟩

/-- C8: is_not_selected performs its inner element lookup with the module
default timeout of 12 whatever caller timeout t was supplied — an element
that never becomes visible within 12 ticks makes it fail with the
element-visible timeout error carrying 12, not t — and only the outer
selection-state wait runs with t. -/
theorem C8_inner_find_uses_default (states : Nat → Session) (x : String)
    (t : Nat) :
    ((∀ k, k ≤ default_timeout →
        ec_visibility_of_element_located x (states k) = none) →
      is_not_selected states x t =
        .error ⟨.elementVisible, default_timeout⟩) ∧
    (∀ e s k, find states x default_timeout = .ok (e, s, k) →
      is_not_selected states x t =
        webDriverWait_until t .elementSelectionState states
          (ec_element_selection_state_to_be e false)) := by
  constructor
  · intro h
    have he : find states x default_timeout =
        .error ⟨.elementVisible, default_timeout⟩ :=
      until_error_of default_timeout .elementVisible states _ h
    unfold is_not_selected
    rw [he]
  · intro e s k h
    unfold is_not_selected
    rw [h]

/-- C8 witness: with no element ever visible and caller timeout 30, the
failure carries elapsed 12, the default, not 30; with a visible element the
outer wait runs with the caller timeout. -/
theorem C8_witness :
    is_not_selected statesEmpty xp0 30 =
      .error ⟨.elementVisible, default_timeout⟩ ∧
    is_not_selected statesFull xp0 2 =
      webDriverWait_until 2 .elementSelectionState statesFull
        (ec_element_selection_state_to_be elemVis false) :=
  ⟨(C8_inner_find_uses_default statesEmpty xp0 30).1 (fun _ _ => rfl),
   (C8_inner_find_uses_default statesFull xp0 2).2 elemVis sessFull 0 rfl⟩

end Rpa

namespace Rpa

/-- C10: under the cache decorator, with consistent memo tables, a second
get_driver call returns the identical driver and leaves the tables alone; a
second get_wait call with the same timeout returns the identical
WebDriverWait and leaves the tables alone; the WebDriverWait returned for
timeout t wraps the cached driver with timeout t and poll frequency 1; and
consistency of the tables is preserved. -/
theorem C10_memoized (c : ModuleCache) (t : Nat) (h : CacheWf c) :
    get_driver (get_driver c).2 = ((get_driver c).1, (get_driver c).2) ∧
    get_wait (get_wait c t).2 t = ((get_wait c t).1, (get_wait c t).2) ∧
    (get_wait c t).1 = ⟨(get_driver c).1, t, 1⟩ ∧
    CacheWf (get_wait c t).2 := by
  have hdrv : get_driver (get_driver c).2 =
      ((get_driver c).1, (get_driver c).2) := by
    cases hd : c.driver with
    | some d => simp [get_driver, hd]
    | none => simp [get_driver, hd]
  have hdrv2 : (get_driver c).2.driver = some (get_driver c).1 := by
    cases hd : c.driver with
    | some d => simp [get_driver, hd]
    | none => simp [get_driver, hd]
  have hwaits : (get_driver c).2.waits = c.waits := by
    cases hd : c.driver with
    | some d => simp [get_driver, hd]
    | none => simp [get_driver, hd]
  refine ⟨hdrv, ?_⟩
  cases hw : c.waits.find? (fun p => p.1 == t) with
  | some p =>
    have hpt : p.1 = t := by
      have hps := List.find?_some hw
      simpa using hps
    have hmem : (t, p.2) ∈ c.waits := by
      have hm := List.mem_of_find?_eq_some hw
      rwa [← hpt]
    obtain ⟨h1, h2, h3⟩ := h t p.2 hmem
    have hg : get_wait c t = (p.2, c) := by simp [get_wait, hw]
    refine ⟨?_, ?_, ?_⟩
    · rw [hg]
      exact hg
    · rw [hg]
      have hgd : get_driver c = (p.2.driverId, c) := by
        simp [get_driver, h3]
      rw [hgd, ← h1, ← h2]
    · rw [hg]
      exact h
  | none =>
    have hg : get_wait c t =
        (⟨(get_driver c).1, t, 1⟩,
          { (get_driver c).2 with
            waits := (t, (⟨(get_driver c).1, t, 1⟩ : WebDriverWaitObj))
              :: (get_driver c).2.waits }) := by
      simp [get_wait, hw]
    refine ⟨?_, ?_, ?_⟩
    · rw [hg]
      have hfind : ((t, (⟨(get_driver c).1, t, 1⟩ : WebDriverWaitObj))
          :: (get_driver c).2.waits).find? (fun p => p.1 == t)
          = some (t, ⟨(get_driver c).1, t, 1⟩) :=
        List.find?_cons_of_pos _ (by simp)
      simp [get_wait, hfind]
    · rw [hg]
    · rw [hg]
      intro t2 w2 hmem
      simp only [List.mem_cons] at hmem
      rcases hmem with he | hm
      · rw [Prod.mk.injEq] at he
        obtain ⟨ht2, hw2⟩ := he
        subst ht2; subst hw2
        exact ⟨rfl, rfl, hdrv2⟩
      · rw [hwaits] at hm
        obtain ⟨e1, e2, e3⟩ := h t2 w2 hm
        refine ⟨e1, e2, ?_⟩
        show (get_driver c).2.driver = some w2.driverId
        cases hd : c.driver with
        | some d =>
          rw [hd] at e3
          simp [get_driver, hd]
          simpa using e3
        | none =>
          rw [hd] at e3
          exact Option.noConfusion e3

/-- C10 witness: from the empty memo tables with timeout 5, repeated calls
return the identical instances and the wait object has poll frequency 1. -/
theorem C10_witness :
    get_driver (get_driver cache0).2 =
      ((get_driver cache0).1, (get_driver cache0).2) ∧
    get_wait (get_wait cache0 5).2 5 =
      ((get_wait cache0 5).1, (get_wait cache0 5).2) ∧
    (get_wait cache0 5).1 = ⟨(get_driver cache0).1, 5, 1⟩ :=
  ⟨(C10_memoized cache0 5 (by intro t w hm; simp [cache0] at hm)).1,
   (C10_memoized cache0 5 (by intro t w hm; simp [cache0] at hm)).2.1,
   (C10_memoized cache0 5 (by intro t w hm; simp [cache0] at hm)).2.2.1⟩

end Rpa
